import Mathlib

/-!
# Magic wand gesture pipeline: constants and the pipeline built on them

The first part embeds `constants.h`.  `constexpr int` values are integers,
`kTargetHz` (a `float` holding the exactly representable value 25) is a
rational, and `sizeof(float)` together with the width of `size_t` are
parameters of `kInputByteCount`, whose product is computed in `size_t` and
then stored in a 32-bit `int`.
-/

namespace MagicWand

/-! ## constants.h -/

/-- The expected accelerometer data sample frequency (`const float kTargetHz = 25;`). -/
def kTargetHz : ℚ := 25

/-- Batch dimension of the model input buffer. -/
def kInputBatchCount : Int := 1

/-- Sample dimension of the model input buffer. -/
def kInputSampleCount : Int := 128

/-- Channel dimension of the model input buffer. -/
def kInputChannelCount : Int := 3

/-- Element count of the model input buffer, the product of its three dimensions. -/
def kInputElementCount : Int :=
  (kInputBatchCount * kInputSampleCount * kInputChannelCount)

/-- Conversion of an integer to an unsigned `size_t` of `sizeBits` bits. -/
def toSizeT (sizeBits : Nat) (n : Int) : Int := n % 2 ^ sizeBits

/-- Conversion of an integer to a 32-bit two's complement `int`. -/
def toInt32 (n : Int) : Int := (n + 2 ^ 31) % 2 ^ 32 - 2 ^ 31

/-- Byte count of the model input buffer, `kInputElementCount * sizeof(float)`:
the left operand is converted to `size_t`, the product is taken in `size_t`,
and the result initialises an `int`.  `sizeofFloat` is `sizeof(float)` and
`sizeBits` the width of `size_t`. -/
def kInputByteCount (sizeofFloat sizeBits : Nat) : Int :=
  toInt32 (toSizeT sizeBits (toSizeT sizeBits kInputElementCount * (sizeofFloat : Int)))

/-- Number of supported gestures. -/
def kGestureCount : Int := 4

/-- Index of the wing gesture. -/
def kWingGesture : Int := 0

/-- Index of the ring gesture. -/
def kRingGesture : Int := 1

/-- Index of the slope gesture. -/
def kSlopeGesture : Int := 2

/-- Index of the no-gesture class. -/
def kNoGesture : Int := 3

/-! ## The pipeline that consumes the constants

The source file holds only the constants; the components below are modelled
from the design document.  Floating-point scores and sample components are
rationals: the pipeline only compares scores and copies sample components.
-/

/-- Modelled from the spec: a Sample, the 3-component vector (x, y, z) of one
accelerometer reading; the type is absent from the source. -/
structure Sample where
  x : ℚ
  y : ℚ
  z : ℚ
  deriving DecidableEq

/-- Window length of the buffer as a natural number, from `kInputSampleCount`. -/
def capacity : Nat := kInputSampleCount.toNat

/-- Modelled from the spec: SampleBuffer, a fixed-capacity circular array of
`kInputSampleCount` samples indexed by a modulo counter.  `head` is the slot
the next push writes, which once the buffer is full is the slot of the oldest
sample; `count` is the number of samples pushed since construction or reset,
saturating at the capacity.  The component is absent from the source. -/
structure SampleBuffer where
  data : List Sample
  head : Nat
  count : Nat
  data_len : data.length = capacity
  head_lt : head < capacity
  count_le : count ≤ capacity

namespace SampleBuffer

/-- Modelled from the spec: the buffer at construction, absent from the source. -/
def empty : SampleBuffer where
  data := List.replicate capacity ⟨0, 0, 0⟩
  head := 0
  count := 0
  data_len := List.length_replicate _ _
  head_lt := by decide
  count_le := by decide

/-- Modelled from the spec: `push(sample)` writes the sample over the oldest
entry and advances the modulo counter; absent from the source. -/
def push (b : SampleBuffer) (s : Sample) : SampleBuffer where
  data := b.data.set b.head s
  head := (b.head + 1) % capacity
  count := min (b.count + 1) capacity
  data_len := by rw [List.length_set]; exact b.data_len
  head_lt := Nat.mod_lt _ (by decide)
  count_le := Nat.min_le_right _ _

/-- Modelled from the spec: `is_full()` reports whether at least
`kInputSampleCount` samples were pushed since construction or reset; absent
from the source. -/
def is_full (b : SampleBuffer) : Bool := decide (capacity ≤ b.count)

/-- Modelled from the spec: `snapshot()` is the view of the stored samples in
chronological order, oldest first, read circularly from `head`; absent from
the source. -/
def snapshot (b : SampleBuffer) : List Sample :=
  (List.range capacity).map fun i => b.data.getD ((b.head + i) % capacity) ⟨0, 0, 0⟩

/-- Modelled from the spec: `reset()` clears the cold-start state; absent from
the source. -/
def reset (b : SampleBuffer) : SampleBuffer :=
  { b with count := 0, count_le := Nat.zero_le _ }

/-- A sequence of pushes, first element first. -/
def pushAll (b : SampleBuffer) (xs : List Sample) : SampleBuffer :=
  xs.foldl push b

end SampleBuffer

/-- Modelled from the spec: the failure of WindowAssembler on a buffer that is
not yet full; absent from the source. -/
inductive AssemblerError where
  | InvalidWindowError
  deriving DecidableEq

namespace WindowAssembler

/-- Modelled from the spec: the flat layout `[s0.x, s0.y, s0.z, s1.x, …]` of
a sequence of samples; absent from the source. -/
def flatten : List Sample → List ℚ
  | [] => []
  | s :: rest => s.x :: s.y :: s.z :: flatten rest

/-- Modelled from the spec: WindowAssembler fails when the buffer is not yet
full and otherwise lays the snapshot out flat, oldest sample first, with no
further transformation; absent from the source. -/
def assemble (b : SampleBuffer) : Except AssemblerError (List ℚ) :=
  if b.is_full then .ok (flatten b.snapshot) else .error .InvalidWindowError

end WindowAssembler

/-- Component `c` of a sample: 0 is x, 1 is y, anything else is z. -/
def Sample.component (s : Sample) (c : Nat) : ℚ :=
  match c with
  | 0 => s.x
  | 1 => s.y
  | _ => s.z

/-- Modelled from the spec: the gesture carried by a GestureEvent, one of
wing, ring, slope, none; absent from the source. -/
inductive Gesture where
  | wing
  | ring
  | slope
  | none
  deriving DecidableEq

/-- Modelled from the spec: GestureEvent, a gesture with an associated
confidence value and tick timestamp; absent from the source. -/
structure GestureEvent where
  gesture : Gesture
  confidence : ℚ
  tick : Int
  deriving DecidableEq

/-- Modelled from the spec: RefractoryState, the tick index of the last
non-none emitted gesture, if there has been one; absent from the source. -/
structure RefractoryState where
  last_trigger_tick : Option Int
  deriving DecidableEq

/-- Modelled from the spec: the configuration of GestureDecider, a confidence
threshold and a refractory period in ticks; absent from the source. -/
structure DeciderConfig where
  threshold : ℚ
  refractory_period : Int

namespace GestureDecider

/-- Modelled from the spec: the scan for the class index with the maximum
score.  `best` and `bestScore` are the running maximum, `i` the index of the
head of the remaining scores; a later score replaces the running maximum only
when strictly greater.  Absent from the source. -/
def argmaxFrom : List ℚ → Nat → Nat → ℚ → Nat × ℚ
  | [], _, best, bestScore => (best, bestScore)
  | s :: rest, i, best, bestScore =>
    if bestScore < s then argmaxFrom rest (i + 1) i s
    else argmaxFrom rest (i + 1) best bestScore

/-- Modelled from the spec: step 1 of `decide`, the pair `(argmax, maxScore)`
of a non-empty score sequence; absent from the source. -/
def argmax : List ℚ → Option (Nat × ℚ)
  | [] => Option.none
  | s :: rest => some (argmaxFrom rest 1 0 s)

/-- Modelled from the spec: the gesture of a class index under the binding
wing = 0, ring = 1, slope = 2, no-gesture = 3; absent from the source. -/
def gestureOfIndex (i : Nat) : Gesture :=
  if i = kWingGesture.toNat then Gesture.wing
  else if i = kRingGesture.toNat then Gesture.ring
  else if i = kSlopeGesture.toNat then Gesture.slope
  else Gesture.none

/-- Modelled from the spec: whether `tick_index - last_trigger_tick` is less than
the refractory period; nothing is suppressed before the first trigger.  Absent
from the source. -/
def suppressed (cfg : DeciderConfig) (st : RefractoryState) (tick_index : Int) : Bool :=
  match st.last_trigger_tick with
  | Option.none => false
  | some last => decide (tick_index - last < cfg.refractory_period)

/-- Modelled from the spec: `decide(scores, tick_index)`, steps 1 to 4 of the
GestureDecider algorithm, returning the event and the next refractory state.
A score sequence whose length is not `kGestureCount` is a contract violation
and yields no result.  Absent from the source. -/
def decide (cfg : DeciderConfig) (st : RefractoryState) (scores : List ℚ)
    (tick_index : Int) : Option (GestureEvent × RefractoryState) :=
  if scores.length ≠ kGestureCount.toNat then Option.none
  else
    match argmax scores with
    | Option.none => Option.none
    | some (am, maxScore) =>
      if am = kNoGesture.toNat ∨ maxScore < cfg.threshold then
        some (⟨Gesture.none, maxScore, tick_index⟩, st)
      else if suppressed cfg st tick_index then
        some (⟨Gesture.none, maxScore, tick_index⟩, st)
      else
        some (⟨gestureOfIndex am, maxScore, tick_index⟩, ⟨some tick_index⟩)

/-- Modelled from the spec: the refractory state at construction or after an
explicit decider reset; absent from the source. -/
def initial : RefractoryState := ⟨Option.none⟩

end GestureDecider

/-! ## Theorems about constants.h -/

/-- C1: the model input element count is the product of batch, sample and
channel counts, `1 * 128 * 3 = 384`, with the three factors being 1, 128 and 3. -/
theorem kInputElementCount_eq :
    kInputElementCount = kInputBatchCount * kInputSampleCount * kInputChannelCount ∧
    kInputBatchCount * kInputSampleCount * kInputChannelCount = 1 * 128 * 3 ∧
    kInputElementCount = 384 ∧
    kInputBatchCount = 1 ∧ kInputSampleCount = 128 ∧ kInputChannelCount = 3 := by
  refine ⟨rfl, ?_, ?_, rfl, rfl, rfl⟩ <;> decide

/-- C2: there are 4 gesture classes, with wing = 0, ring = 1, slope = 2 and
no-gesture = 3. -/
theorem gesture_index_binding :
    kGestureCount = 4 ∧ kWingGesture = 0 ∧ kRingGesture = 1 ∧
    kSlopeGesture = 2 ∧ kNoGesture = 3 :=
  ⟨rfl, rfl, rfl, rfl, rfl⟩

/-- C3: with a 4-byte float, and any `size_t` of at least 16 bits, the byte
count is `384 * 4 = 1536`; the mathematical product lies in the range of a
32-bit signed int, so the stored value is the unwrapped product; and the byte
count is an exact multiple of the element count.  More generally the stored
value is `384 * sizeof(float)` whenever that product fits both types. -/
theorem kInputByteCount_float (sizeBits : Nat) (hbits : 16 ≤ sizeBits) :
    kInputByteCount 4 sizeBits = 384 * 4 ∧
    kInputByteCount 4 sizeBits = 1536 ∧
    (-(2 : Int) ^ 31 ≤ kInputElementCount * 4 ∧ kInputElementCount * 4 < 2 ^ 31) ∧
    kInputByteCount 4 sizeBits = kInputElementCount * 4 ∧
    kInputByteCount 4 sizeBits % kInputElementCount = 0 ∧
    kInputElementCount ∣ kInputByteCount 4 sizeBits ∧
    (∀ s : Nat, 384 * (s : Int) < 2 ^ 31 → 384 * (s : Int) < 2 ^ sizeBits →
      kInputByteCount s sizeBits = 384 * (s : Int)) := by
  have h16 : (2 : Int) ^ 16 ≤ 2 ^ sizeBits :=
    pow_le_pow_right₀ (by norm_num) hbits
  have hel : kInputElementCount = 384 := by decide
  have hconv : toSizeT sizeBits kInputElementCount = 384 := by
    rw [hel]
    unfold toSizeT
    exact Int.emod_eq_of_lt (by norm_num) (by norm_num at h16 ⊢; omega)
  have hgen : ∀ s : Nat, 384 * (s : Int) < 2 ^ 31 → 384 * (s : Int) < 2 ^ sizeBits →
      kInputByteCount s sizeBits = 384 * (s : Int) := by
    intro s h31 hsz
    unfold kInputByteCount
    rw [hconv]
    have hnn : (0 : Int) ≤ 384 * (s : Int) := by positivity
    have h1 : toSizeT sizeBits (384 * (s : Int)) = 384 * (s : Int) := by
      unfold toSizeT
      exact Int.emod_eq_of_lt hnn hsz
    rw [h1]
    unfold toInt32
    have h2 : (384 * (s : Int) + 2 ^ 31) % 2 ^ 32 = 384 * (s : Int) + 2 ^ 31 :=
      Int.emod_eq_of_lt (by positivity) (by norm_num at h31 ⊢; omega)
    rw [h2]
    ring
  have h4 : kInputByteCount 4 sizeBits = 1536 := by
    have := hgen 4 (by norm_num) (by norm_num at h16 ⊢; omega)
    simpa using this
  refine ⟨?_, h4, ?_, ?_, ?_, ?_, hgen⟩
  · rw [h4]; norm_num
  · rw [hel]; norm_num
  · rw [h4, hel]; norm_num
  · rw [h4, hel]; norm_num
  · rw [h4, hel]; norm_num

/-- Witness for C3 on a 32-bit `size_t`. -/
theorem kInputByteCount_float_witness :
    16 ≤ 32 ∧ kInputByteCount 4 32 = 1536 :=
  ⟨by decide, (kInputByteCount_float 32 (by decide)).2.1⟩

/-- C4: the target sample frequency is 25 Hz, and the tick period it implies
is 40 ms: `1000 / kTargetHz = 40`, equivalently `1 / 25` of a second. -/
theorem kTargetHz_period :
    kTargetHz = 25 ∧ 1000 / kTargetHz = 40 ∧
    1 / kTargetHz = 1 / 25 ∧ (1 / kTargetHz) * 1000 = 40 := by
  unfold kTargetHz
  norm_num

/-- C10: the four gesture indices are pairwise distinct, each lies in
`0 ≤ index < kGestureCount`, every valid index of a score array of length
`kGestureCount` is one of them, and `kNoGesture` is the last index. -/
theorem gesture_indices_enumerate :
    [kWingGesture, kRingGesture, kSlopeGesture, kNoGesture].Pairwise (· ≠ ·) ∧
    (∀ g ∈ [kWingGesture, kRingGesture, kSlopeGesture, kNoGesture],
      0 ≤ g ∧ g < kGestureCount) ∧
    (∀ i : Int, (0 ≤ i ∧ i < kGestureCount) ↔
      i ∈ [kWingGesture, kRingGesture, kSlopeGesture, kNoGesture]) ∧
    [kWingGesture, kRingGesture, kSlopeGesture, kNoGesture].length = kGestureCount ∧
    kNoGesture = kGestureCount - 1 := by
  refine ⟨by decide, by decide, ?_, by decide, by decide⟩
  intro i
  simp only [kGestureCount, kWingGesture, kRingGesture, kSlopeGesture, kNoGesture,
    List.mem_cons, List.mem_singleton, List.not_mem_nil, or_false]
  omega

/-! ## Lemmas about the modelled pipeline -/

theorem capacity_eq : capacity = 128 := rfl

namespace SampleBuffer

theorem snapshot_length (b : SampleBuffer) : b.snapshot.length = capacity := by
  simp [snapshot]

theorem snapshot_getElem? (b : SampleBuffer) (i : Nat) (hi : i < capacity) :
    b.snapshot[i]? = some (b.data.getD ((b.head + i) % capacity) ⟨0, 0, 0⟩) := by
  simp [snapshot, List.getElem?_map, List.getElem?_range hi]

/-- One push drops the oldest sample of the view and appends the new one. -/
theorem snapshot_push (b : SampleBuffer) (s : Sample) :
    (b.push s).snapshot = b.snapshot.drop 1 ++ [s] := by
  apply List.ext_getElem?
  intro i
  have hlen := b.data_len
  have hhead := b.head_lt
  rw [capacity_eq] at hlen hhead
  by_cases hi : i < capacity
  · rw [snapshot_getElem? _ _ hi]
    rw [capacity_eq] at hi
    by_cases hlast : i = 127
    · subst hlast
      have hidx : ((b.push s).head + 127) % capacity = b.head := by
        simp only [push, capacity_eq]; omega
      rw [hidx]
      have : (b.snapshot.drop 1 ++ [s])[127]? = some s := by
        rw [List.getElem?_append_right (by simp [snapshot_length, capacity_eq])]
        simp [snapshot_length, capacity_eq]
      rw [this]
      simp [push, List.getD_eq_getElem?_getD, List.getElem?_set, hlen, hhead]
    · have hi1 : i + 1 < capacity := by rw [capacity_eq]; omega
      have hidx : ((b.push s).head + i) % capacity = (b.head + (i + 1)) % capacity := by
        simp only [push, capacity_eq]; omega
      have hne : b.head ≠ (b.head + (i + 1)) % capacity := by
        rw [capacity_eq]; omega
      rw [hidx, List.getElem?_append_left (by simp [snapshot_length, capacity_eq]; omega)]
      rw [List.getElem?_drop, Nat.add_comm 1 i, snapshot_getElem? _ _ hi1]
      simp [push, List.getD_eq_getElem?_getD, List.getElem?_set, hne]
  · have h1 : (b.push s).snapshot.length ≤ i := by rw [snapshot_length]; omega
    have h2 : (b.snapshot.drop 1 ++ [s]).length ≤ i := by
      simp [snapshot_length]; rw [capacity_eq] at hi ⊢; omega
    rw [List.getElem?_eq_none h1, List.getElem?_eq_none h2]

/-- After a sequence of pushes the view is the old view followed by the pushed
samples, with as many of the oldest entries dropped as samples were pushed. -/
theorem snapshot_pushAll (xs : List Sample) : ∀ b : SampleBuffer,
    (b.pushAll xs).snapshot = (b.snapshot ++ xs).drop xs.length := by
  induction xs with
  | nil => intro b; simp [pushAll]
  | cons s rest ih =>
    intro b
    have hpos : 0 < b.snapshot.length := by rw [snapshot_length, capacity_eq]; omega
    have step : pushAll b (s :: rest) = pushAll (b.push s) rest := rfl
    rw [step, ih (b.push s), snapshot_push]
    cases hsnap : b.snapshot with
    | nil => rw [hsnap] at hpos; simp at hpos
    | cons a t => simp [List.length_cons]

theorem snapshot_pushAll_full (b : SampleBuffer) (xs : List Sample)
    (h : capacity ≤ xs.length) :
    (b.pushAll xs).snapshot = xs.drop (xs.length - capacity) := by
  rw [snapshot_pushAll, List.drop_append_eq_append_drop, snapshot_length,
    List.drop_of_length_le (by rw [snapshot_length]; omega), List.nil_append]

theorem count_pushAll (xs : List Sample) : ∀ b : SampleBuffer,
    (b.pushAll xs).count = min (b.count + xs.length) capacity := by
  induction xs with
  | nil =>
    intro b
    have := b.count_le
    simp only [pushAll, List.foldl_nil, List.length_nil]
    omega
  | cons s rest ih =>
    intro b
    have step : pushAll b (s :: rest) = pushAll (b.push s) rest := rfl
    rw [step, ih (b.push s)]
    simp only [push, List.length_cons, capacity_eq]
    omega

theorem is_full_pushAll (b : SampleBuffer) (xs : List Sample) (h0 : b.count = 0) :
    (b.pushAll xs).is_full = decide (capacity ≤ xs.length) := by
  unfold is_full
  rw [count_pushAll, h0, capacity_eq]
  by_cases h : 128 ≤ xs.length <;> simp [h]

end SampleBuffer

namespace WindowAssembler

theorem flatten_length (l : List Sample) : (flatten l).length = 3 * l.length := by
  induction l with
  | nil => rfl
  | cons s rest ih => simp only [flatten, List.length_cons, ih]; omega

theorem flatten_getElem? (l : List Sample) : ∀ (i c : Nat) (s : Sample),
    l[i]? = some s → c < 3 → (flatten l)[3 * i + c]? = some (s.component c) := by
  induction l with
  | nil => intro i c s h; simp at h
  | cons a rest ih =>
    intro i c s h hc
    cases i with
    | zero =>
      simp at h
      subst h
      interval_cases c <;> simp [flatten, Sample.component]
    | succ j =>
      simp at h
      have := ih j c s h hc
      have e : 3 * (j + 1) + c = (3 * j + c) + 1 + 1 + 1 := by ring
      rw [e]
      simpa [flatten] using this

end WindowAssembler

namespace GestureDecider

theorem argmaxFrom_spec (rest : List ℚ) : ∀ (pre : List ℚ) (best : Nat) (bestScore : ℚ),
    pre[best]? = some bestScore →
    (∀ j x, pre[j]? = some x → x ≤ bestScore ∧ (x = bestScore → best ≤ j)) →
    (pre ++ rest)[(argmaxFrom rest pre.length best bestScore).1]? =
        some (argmaxFrom rest pre.length best bestScore).2 ∧
      ∀ j x, (pre ++ rest)[j]? = some x →
        x ≤ (argmaxFrom rest pre.length best bestScore).2 ∧
        (x = (argmaxFrom rest pre.length best bestScore).2 →
          (argmaxFrom rest pre.length best bestScore).1 ≤ j) := by
  induction rest with
  | nil =>
    intro pre best bestScore hbest hall
    simpa [argmaxFrom] using ⟨hbest, hall⟩
  | cons s t ih =>
    intro pre best bestScore hbest hall
    have hbl : best < pre.length := (List.getElem?_eq_some_iff.mp hbest).1
    have hsplit : pre ++ s :: t = (pre ++ [s]) ++ t := by simp
    have hlen : (pre ++ [s]).length = pre.length + 1 := by simp
    have hcase : ∀ j x, (pre ++ [s])[j]? = some x →
        (pre[j]? = some x ∧ j < pre.length) ∨ (j = pre.length ∧ x = s) := by
      intro j x hj
      rcases Nat.lt_or_ge j pre.length with h | h
      · left
        rw [List.getElem?_append_left h] at hj
        exact ⟨hj, h⟩
      · right
        rw [List.getElem?_append_right h] at hj
        have hj0 : j - pre.length = 0 := by
          by_contra hne
          have : [s][j - pre.length]? = none := by
            apply List.getElem?_eq_none
            simp only [List.length_singleton]
            omega
          rw [this] at hj
          exact Option.noConfusion hj
        rw [hj0] at hj
        simp at hj
        exact ⟨by omega, hj.symm⟩
    simp only [argmaxFrom]
    rw [hsplit, ← hlen]
    split
    · rename_i hlt
      apply ih (pre ++ [s]) (pre.length) s
      · simp
      · intro j x hj
        rcases hcase j x hj with ⟨hp, hjl⟩ | ⟨hjl, hx⟩
        · have := (hall j x hp).1
          exact ⟨by linarith, fun h => by linarith⟩
        · exact ⟨by rw [hx], fun _ => by omega⟩
    · rename_i hnlt
      apply ih (pre ++ [s]) best bestScore
      · rw [List.getElem?_append_left hbl]; exact hbest
      · intro j x hj
        rcases hcase j x hj with ⟨hp, hjl⟩ | ⟨hjl, hx⟩
        · exact hall j x hp
        · exact ⟨by rw [hx]; exact not_lt.mp hnlt, fun _ => by omega⟩

theorem argmax_spec (scores : List ℚ) (am : Nat) (m : ℚ)
    (h : argmax scores = some (am, m)) :
    scores[am]? = some m ∧
      ∀ j x, scores[j]? = some x → x ≤ m ∧ (x = m → am ≤ j) := by
  cases scores with
  | nil => simp [argmax] at h
  | cons s rest =>
    simp only [argmax, Option.some.injEq] at h
    have key := argmaxFrom_spec rest [s] 0 s (by simp) (by
      intro j x hj
      cases j with
      | zero => simp at hj; exact ⟨by rw [hj], fun _ => le_refl _⟩
      | succ k => simp at hj)
    simp only [List.length_singleton, List.singleton_append, h] at key
    exact key

theorem argmax_isSome (scores : List ℚ) (h : scores ≠ []) :
    ∃ am m, argmax scores = some (am, m) := by
  cases scores with
  | nil => exact absurd rfl h
  | cons s rest => exact ⟨_, _, rfl⟩

theorem argmax_eq_of_lowest_max (scores : List ℚ) (i : Nat) (m : ℚ)
    (hi : scores[i]? = some m)
    (hmax : ∀ (j : Nat) (x : ℚ), scores[j]? = some x → x ≤ m)
    (hlow : ∀ (j : Nat) (x : ℚ), j < i → scores[j]? = some x → x < m) :
    argmax scores = some (i, m) := by
  have hne : scores ≠ [] := by
    intro h; rw [h] at hi; simp at hi
  obtain ⟨am, m', h⟩ := argmax_isSome scores hne
  obtain ⟨h1, h2⟩ := argmax_spec scores am m' h
  have hle1 : m' ≤ m := hmax am m' h1
  have hle2 : m ≤ m' := (h2 i m hi).1
  have hmm : m' = m := le_antisymm hle1 hle2
  subst hmm
  have hai : am ≤ i := (h2 i m' hi).2 rfl
  have hia : ¬ am < i := fun hlt => absurd (hlow am m' hlt h1) (lt_irrefl _)
  have : am = i := by omega
  rw [h, this]

end GestureDecider

/-! ## Theorems about the modelled pipeline -/

namespace GestureDecider

theorem decide_of_argmax (cfg : DeciderConfig) (st : RefractoryState) (scores : List ℚ)
    (tick_index : Int) (am : Nat) (m : ℚ)
    (hlen : scores.length = kGestureCount.toNat) (harg : argmax scores = some (am, m)) :
    decide cfg st scores tick_index =
      if am = kNoGesture.toNat ∨ m < cfg.threshold then
        some (⟨Gesture.none, m, tick_index⟩, st)
      else if suppressed cfg st tick_index then
        some (⟨Gesture.none, m, tick_index⟩, st)
      else
        some (⟨gestureOfIndex am, m, tick_index⟩, ⟨some tick_index⟩) := by
  unfold decide
  rw [if_neg (not_not.mpr hlen), harg]

theorem gestureOfIndex_ne_none (am : Nat) (hlt : am < kGestureCount.toNat)
    (hne : am ≠ kNoGesture.toNat) : gestureOfIndex am ≠ Gesture.none := by
  have h4 : kGestureCount.toNat = 4 := rfl
  have h3 : kNoGesture.toNat = 3 := rfl
  rw [h4] at hlt
  rw [h3] at hne
  interval_cases am
  · decide
  · decide
  · decide
  · exact absurd rfl hne

end GestureDecider

/-- C5: for every well-formed score sequence, when `i` is the lowest class
index holding the maximum score `m` (every score is at most `m`, every score
at a lower index is strictly below `m`), the scan selects `i` as argmax with
maximum `m`, and for a gesture class passing the confidence threshold with no
refractory suppression in effect `decide` emits the gesture of index `i`, a
gesture other than none, and records the tick; in particular scores [0.5, 0.5, 0.1, 0.2] with threshold 0.3 yield wing. -/
theorem decide_tie_break_lowest_index :
    (∀ (cfg : DeciderConfig) (st : RefractoryState) (scores : List ℚ) (tick_index : Int)
        (i : Nat) (m : ℚ),
      scores.length = kGestureCount.toNat →
      scores[i]? = some m →
      (∀ (j : Nat) (x : ℚ), scores[j]? = some x → x ≤ m) →
      (∀ (j : Nat) (x : ℚ), j < i → scores[j]? = some x → x < m) →
      GestureDecider.argmax scores = some (i, m) ∧
      (i ≠ kNoGesture.toNat → cfg.threshold ≤ m →
        GestureDecider.suppressed cfg st tick_index = false →
        GestureDecider.gestureOfIndex i ≠ Gesture.none ∧
        GestureDecider.decide cfg st scores tick_index =
          some (⟨GestureDecider.gestureOfIndex i, m, tick_index⟩, ⟨some tick_index⟩))) ∧
    (∀ (period tick_index : Int),
      GestureDecider.decide ⟨0.3, period⟩ GestureDecider.initial [0.5, 0.5, 0.1, 0.2]
          tick_index =
        some (⟨Gesture.wing, 0.5, tick_index⟩, ⟨some tick_index⟩)) := by
  have gen : ∀ (cfg : DeciderConfig) (st : RefractoryState) (scores : List ℚ)
      (tick_index : Int) (i : Nat) (m : ℚ),
      scores.length = kGestureCount.toNat →
      scores[i]? = some m →
      (∀ (j : Nat) (x : ℚ), scores[j]? = some x → x ≤ m) →
      (∀ (j : Nat) (x : ℚ), j < i → scores[j]? = some x → x < m) →
      GestureDecider.argmax scores = some (i, m) ∧
      (i ≠ kNoGesture.toNat → cfg.threshold ≤ m →
        GestureDecider.suppressed cfg st tick_index = false →
        GestureDecider.gestureOfIndex i ≠ Gesture.none ∧
        GestureDecider.decide cfg st scores tick_index =
          some (⟨GestureDecider.gestureOfIndex i, m, tick_index⟩, ⟨some tick_index⟩)) := by
    intro cfg st scores tick_index i m hlen hi hmax hlow
    have harg := GestureDecider.argmax_eq_of_lowest_max scores i m hi hmax hlow
    have hlt : i < kGestureCount.toNat := by
      rw [← hlen]
      exact (List.getElem?_eq_some_iff.mp hi).1
    refine ⟨harg, fun hno hthr hsup =>
      ⟨GestureDecider.gestureOfIndex_ne_none i hlt hno, ?_⟩⟩
    rw [GestureDecider.decide_of_argmax cfg st scores tick_index i m hlen harg,
      if_neg (by rintro (h | h); exact hno h; exact absurd h (not_lt.mpr hthr)), hsup]
    simp
  refine ⟨gen, fun period tick_index => ?_⟩
  have h := (gen ⟨0.3, period⟩ GestureDecider.initial [0.5, 0.5, 0.1, 0.2] tick_index 0 0.5
    rfl (by simp) (by
      intro j x hj
      match j, hj with
      | 0, hj => simp at hj; rw [← hj]
      | 1, hj => simp at hj; rw [← hj]
      | 2, hj => simp at hj; rw [← hj]; norm_num
      | 3, hj => simp at hj; rw [← hj]; norm_num
      | (k + 4), hj => simp at hj) (by intro j x hj; omega)).2
    (by decide) (by norm_num) rfl
  rw [h.2]
  rfl

/-- Witness for C5: the tie [0.5, 0.5, 0.1, 0.2] is decided for index 0. -/
theorem decide_tie_break_lowest_index_witness :
    GestureDecider.argmax [0.5, 0.5, 0.1, 0.2] = some (0, 0.5) ∧
    GestureDecider.decide ⟨0.3, 10⟩ GestureDecider.initial [0.5, 0.5, 0.1, 0.2] 7 =
      some (⟨Gesture.wing, 0.5, 7⟩, ⟨some 7⟩) :=
  ⟨(decide_tie_break_lowest_index.1 ⟨0.3, 10⟩ GestureDecider.initial [0.5, 0.5, 0.1, 0.2] 7
      0 0.5 rfl (by simp) (by
        intro j x hj
        match j, hj with
        | 0, hj => simp at hj; rw [← hj]
        | 1, hj => simp at hj; rw [← hj]
        | 2, hj => simp at hj; rw [← hj]; norm_num
        | 3, hj => simp at hj; rw [← hj]; norm_num
        | (k + 4), hj => simp at hj) (by intro j x hj; omega)).1,
    decide_tie_break_lowest_index.2 10 7⟩

/-- C6: for every well-formed score sequence, tick index and refractory state,
when `i` is the lowest class index holding the maximum score `m` and either
`i` is the no-gesture index or `m` is below the confidence threshold, `decide`
emits the event none and keeps the refractory state; with argmax no-gesture
this holds for every threshold, as for scores [0.2, 0.1, 0.1, 0.6]. -/
theorem decide_confidence_gating :
    (∀ (cfg : DeciderConfig) (st : RefractoryState) (scores : List ℚ) (tick_index : Int)
        (i : Nat) (m : ℚ),
      scores.length = kGestureCount.toNat →
      scores[i]? = some m →
      (∀ (j : Nat) (x : ℚ), scores[j]? = some x → x ≤ m) →
      (∀ (j : Nat) (x : ℚ), j < i → scores[j]? = some x → x < m) →
      i = kNoGesture.toNat ∨ m < cfg.threshold →
      GestureDecider.decide cfg st scores tick_index =
        some (⟨Gesture.none, m, tick_index⟩, st)) ∧
    (∀ (cfg : DeciderConfig) (st : RefractoryState) (tick_index : Int),
      GestureDecider.decide cfg st [0.2, 0.1, 0.1, 0.6] tick_index =
        some (⟨Gesture.none, 0.6, tick_index⟩, st)) ∧
    (∀ (period : Int) (st : RefractoryState) (tick_index : Int),
      GestureDecider.decide ⟨0.3, period⟩ st [0.2, 0.1, 0.1, 0.6] tick_index =
        some (⟨Gesture.none, 0.6, tick_index⟩, st)) := by
  have gen : ∀ (cfg : DeciderConfig) (st : RefractoryState) (scores : List ℚ)
      (tick_index : Int) (i : Nat) (m : ℚ),
      scores.length = kGestureCount.toNat →
      scores[i]? = some m →
      (∀ (j : Nat) (x : ℚ), scores[j]? = some x → x ≤ m) →
      (∀ (j : Nat) (x : ℚ), j < i → scores[j]? = some x → x < m) →
      i = kNoGesture.toNat ∨ m < cfg.threshold →
      GestureDecider.decide cfg st scores tick_index =
        some (⟨Gesture.none, m, tick_index⟩, st) := by
    intro cfg st scores tick_index i m hlen hi hmax hlow hgate
    have harg := GestureDecider.argmax_eq_of_lowest_max scores i m hi hmax hlow
    rw [GestureDecider.decide_of_argmax cfg st scores tick_index i m hlen harg, if_pos hgate]
  have ex : ∀ (cfg : DeciderConfig) (st : RefractoryState) (tick_index : Int),
      GestureDecider.decide cfg st [0.2, 0.1, 0.1, 0.6] tick_index =
        some (⟨Gesture.none, 0.6, tick_index⟩, st) := by
    intro cfg st tick_index
    refine gen cfg st [0.2, 0.1, 0.1, 0.6] tick_index 3 0.6 rfl (by simp) ?_ ?_ (Or.inl rfl)
    · intro j x hj
      match j, hj with
      | 0, hj => simp at hj; rw [← hj]; norm_num
      | 1, hj => simp at hj; rw [← hj]; norm_num
      | 2, hj => simp at hj; rw [← hj]; norm_num
      | 3, hj => simp at hj; rw [← hj]
      | (k + 4), hj => simp at hj
    · intro j x hlt hj
      match j, hlt, hj with
      | 0, _, hj => simp at hj; rw [← hj]; norm_num
      | 1, _, hj => simp at hj; rw [← hj]; norm_num
      | 2, _, hj => simp at hj; rw [← hj]; norm_num
      | (k + 3), hlt, _ => omega
  exact ⟨gen, ex, fun period st tick_index => ex ⟨0.3, period⟩ st tick_index⟩

/-- Witness for C6: a gesture class whose maximum 0.25 is below the threshold
0.3 yields none and leaves the state of a trigger at tick 2 in place. -/
theorem decide_confidence_gating_witness :
    GestureDecider.decide ⟨0.3, 10⟩ ⟨some 2⟩ [0.1, 0.25, 0.1, 0.2] 50 =
      some (⟨Gesture.none, 0.25, 50⟩, ⟨some 2⟩) :=
  decide_confidence_gating.1 ⟨0.3, 10⟩ ⟨some 2⟩ [0.1, 0.25, 0.1, 0.2] 50 1 0.25 rfl
    (by simp) (by
      intro j x hj
      match j, hj with
      | 0, hj => simp at hj; rw [← hj]; norm_num
      | 1, hj => simp at hj; rw [← hj]
      | 2, hj => simp at hj; rw [← hj]; norm_num
      | 3, hj => simp at hj; rw [← hj]; norm_num
      | (k + 4), hj => simp at hj) (by
      intro j x hlt hj
      match j, hlt, hj with
      | 0, _, hj => simp at hj; rw [← hj]; norm_num
      | (k + 1), hlt, _ => omega) (Or.inr (by norm_num))

/-- C7: when a call of `decide` at tick `t1` emits a non-none gesture, and a
second call at tick `t2` has scores that pass the gating (argmax `am` is not
the no-gesture index, maximum `m` is not below the threshold) with
`t2 - t1 < refractory_period`, then the first call recorded `t1` as
`last_trigger_tick`, and the second call emits none and leaves
`last_trigger_tick` equal to `t1`. -/
theorem decide_refractory_suppression (cfg : DeciderConfig) (st st1 : RefractoryState)
    (scores1 scores2 : List ℚ) (t1 t2 : Int) (ev1 : GestureEvent) (am : Nat) (m : ℚ)
    (hfirst : GestureDecider.decide cfg st scores1 t1 = some (ev1, st1))
    (hev1 : ev1.gesture ≠ Gesture.none)
    (hlen : scores2.length = kGestureCount.toNat)
    (harg : GestureDecider.argmax scores2 = some (am, m))
    (hcls : am ≠ kNoGesture.toNat) (hthr : ¬ m < cfg.threshold)
    (hwithin : t2 - t1 < cfg.refractory_period) :
    st1.last_trigger_tick = some t1 ∧
    GestureDecider.decide cfg st1 scores2 t2 = some (⟨Gesture.none, m, t2⟩, st1) ∧
    (∀ ev2 st2, GestureDecider.decide cfg st1 scores2 t2 = some (ev2, st2) →
      ev2.gesture = Gesture.none ∧ st2.last_trigger_tick = some t1) := by
  have hst1 : st1 = ⟨some t1⟩ := by
    unfold GestureDecider.decide at hfirst
    split at hfirst
    · exact Option.noConfusion hfirst
    · split at hfirst
      · exact Option.noConfusion hfirst
      · split at hfirst
        · simp only [Option.some.injEq, Prod.mk.injEq] at hfirst
          exact absurd (by rw [← hfirst.1]) hev1
        · split at hfirst
          · simp only [Option.some.injEq, Prod.mk.injEq] at hfirst
            exact absurd (by rw [← hfirst.1]) hev1
          · simp only [Option.some.injEq, Prod.mk.injEq] at hfirst
            exact hfirst.2.symm
  have hsup : GestureDecider.suppressed cfg st1 t2 = true := by
    rw [hst1]
    simp [GestureDecider.suppressed, hwithin]
  have hsecond : GestureDecider.decide cfg st1 scores2 t2 =
      some (⟨Gesture.none, m, t2⟩, st1) := by
    rw [GestureDecider.decide_of_argmax cfg st1 scores2 t2 am m hlen harg,
      if_neg (by rintro (h | h); exact hcls h; exact hthr h), hsup]
    simp
  refine ⟨by rw [hst1], hsecond, ?_⟩
  intro ev2 st2 h2
  rw [hsecond] at h2
  simp only [Option.some.injEq, Prod.mk.injEq] at h2
  exact ⟨by rw [← h2.1], by rw [← h2.2, hst1]⟩

/-- Witness for C7: wing triggers at tick 100; the same scores at tick 103,
within a refractory period of 10 ticks, are suppressed. -/
theorem decide_refractory_suppression_witness :
    GestureDecider.decide ⟨3 / 10, 10⟩ ⟨some 100⟩ [9 / 10, 0, 0, 0] 103 =
      some (⟨Gesture.none, 9 / 10, 103⟩, ⟨some 100⟩) :=
  (decide_refractory_suppression ⟨3 / 10, 10⟩ GestureDecider.initial ⟨some 100⟩
    [9 / 10, 0, 0, 0] [9 / 10, 0, 0, 0] 100 103 ⟨Gesture.wing, 9 / 10, 100⟩ 0 (9 / 10)
    (by
      simp [GestureDecider.decide, GestureDecider.argmax, GestureDecider.argmaxFrom,
        GestureDecider.suppressed, GestureDecider.initial, GestureDecider.gestureOfIndex,
        kGestureCount, kNoGesture, kWingGesture]
      norm_num)
    (by decide) rfl
    (by
      simp [GestureDecider.argmax, GestureDecider.argmaxFrom]
      norm_num)
    (by decide) (by norm_num) (by decide)).2.1

/-- C8: starting from a constructed or a reset buffer, after pushing `n`
samples `is_full` is false when `n < 128` and true when `n ≥ 128`; a full
buffer stays full under every further push and sequence of pushes, and reset
clears it. -/
theorem is_full_cold_start_gate :
    (∀ xs : List Sample,
      (xs.length < 128 → (SampleBuffer.empty.pushAll xs).is_full = false) ∧
      (128 ≤ xs.length → (SampleBuffer.empty.pushAll xs).is_full = true)) ∧
    (∀ (b : SampleBuffer) (xs : List Sample),
      (xs.length < 128 → (b.reset.pushAll xs).is_full = false) ∧
      (128 ≤ xs.length → (b.reset.pushAll xs).is_full = true)) ∧
    (∀ (b : SampleBuffer) (s : Sample), b.is_full = true → (b.push s).is_full = true) ∧
    (∀ (b : SampleBuffer) (xs : List Sample),
      b.is_full = true → (b.pushAll xs).is_full = true) ∧
    (∀ b : SampleBuffer, b.reset.is_full = false) := by
  have key : ∀ (b : SampleBuffer) (xs : List Sample), b.count = 0 →
      (xs.length < 128 → (b.pushAll xs).is_full = false) ∧
      (128 ≤ xs.length → (b.pushAll xs).is_full = true) := by
    intro b xs h0
    rw [SampleBuffer.is_full_pushAll b xs h0, capacity_eq]
    constructor
    · intro h; simp; omega
    · intro h; simp [h]
  have stay : ∀ (b : SampleBuffer) (xs : List Sample),
      b.is_full = true → (b.pushAll xs).is_full = true := by
    intro b xs hb
    unfold SampleBuffer.is_full at hb ⊢
    rw [SampleBuffer.count_pushAll]
    simp only [decide_eq_true_eq] at hb ⊢
    omega
  refine ⟨fun xs => key _ xs rfl, fun b xs => key _ xs rfl, ?_, stay, ?_⟩
  · intro b s hb
    exact stay b [s] hb
  · intro b
    rfl

/-- Witness for C8: 127 pushes leave a fresh buffer not full, 128 fill it. -/
theorem is_full_cold_start_gate_witness :
    (SampleBuffer.empty.pushAll (List.replicate 127 ⟨1, 2, 3⟩)).is_full = false ∧
    (SampleBuffer.empty.pushAll (List.replicate 128 ⟨1, 2, 3⟩)).is_full = true :=
  ⟨(is_full_cold_start_gate.1 (List.replicate 127 ⟨1, 2, 3⟩)).1 (by simp),
    (is_full_cold_start_gate.1 (List.replicate 128 ⟨1, 2, 3⟩)).2 (by simp)⟩

/-- C9: whatever the buffer `b` held before (in particular a constructed or a
reset buffer), after pushing `n ≥ 128` samples `xs` the snapshot is exactly the
last 128 of them in chronological order (after 129 pushes, all but the first),
and WindowAssembler succeeds with exactly 384 values in which position
`3 * i + c` holds component `c` of the `i`-th oldest sample of that snapshot. -/
theorem sliding_window_content (b : SampleBuffer) (xs : List Sample)
    (hn : 128 ≤ xs.length) :
    (b.pushAll xs).snapshot = xs.drop (xs.length - 128) ∧
    (b.pushAll xs).snapshot.length = 128 ∧
    (xs.length = 129 → (b.pushAll xs).snapshot = xs.drop 1) ∧
    ∃ out : List ℚ,
      WindowAssembler.assemble (b.pushAll xs) = Except.ok out ∧
      out.length = 384 ∧
      out.length = kInputElementCount.toNat ∧
      ∀ (i c : Nat), i < 128 → c < 3 →
        ∃ s : Sample, (b.pushAll xs).snapshot[i]? = some s ∧
          xs[xs.length - 128 + i]? = some s ∧
          out[3 * i + c]? = some (s.component c) := by
  have hsnap : (b.pushAll xs).snapshot = xs.drop (xs.length - 128) :=
    SampleBuffer.snapshot_pushAll_full b xs hn
  have hlen : (b.pushAll xs).snapshot.length = 128 := SampleBuffer.snapshot_length _
  have hfull : (b.pushAll xs).is_full = true := by
    unfold SampleBuffer.is_full
    rw [SampleBuffer.count_pushAll, capacity_eq]
    simp only [decide_eq_true_eq]
    omega
  refine ⟨hsnap, hlen, ?_, WindowAssembler.flatten (b.pushAll xs).snapshot, ?_, ?_, ?_, ?_⟩
  · intro h129
    rw [hsnap, h129]
  · unfold WindowAssembler.assemble
    rw [hfull]
    rfl
  · rw [WindowAssembler.flatten_length, hlen]
  · rw [WindowAssembler.flatten_length, hlen]
    rfl
  · intro i c hi hc
    have hi2 : i < (b.pushAll xs).snapshot.length := by rw [hlen]; exact hi
    refine ⟨(b.pushAll xs).snapshot[i], List.getElem?_eq_getElem hi2, ?_, ?_⟩
    · rw [← List.getElem?_eq_getElem hi2, hsnap, List.getElem?_drop]
    · exact WindowAssembler.flatten_getElem? _ i c _ (List.getElem?_eq_getElem hi2) hc

/-- Witness for C9: after 129 pushes into a fresh buffer the snapshot is the
pushed sequence without its first sample. -/
theorem sliding_window_content_witness :
    (SampleBuffer.empty.pushAll
        ((List.range 129).map fun (k : Nat) => Sample.mk (k : ℚ) 0 0)).snapshot =
      ((List.range 129).map fun (k : Nat) => Sample.mk (k : ℚ) 0 0).drop 1 :=
  (sliding_window_content SampleBuffer.empty
    ((List.range 129).map fun (k : Nat) => Sample.mk (k : ℚ) 0 0) (by simp)).2.2.1 (by simp)
end MagicWand
